import Mathlib

/-! Shallow embedding of the multi-vendor settlement core.

This file embeds the commission-setting service and the vendor-payout
service of the repository (NestJS + Prisma) as pure Lean functions over an
explicit database state, and proves or refutes the specification's claims
about them.

Conventions of the embedding:
* Monetary values and percentages are exact rationals (`ℚ`); `round2`
  rounds to 2 decimal places, half away from zero for nonnegative inputs
  (the idealisation of JavaScript's `toFixed(2)` on the nonnegative range).
* A Prisma table is a `List` of records; `findUnique`/`findFirst` is
  `List.find?`, `update` is a `List.map` guarded on the id, `delete` is a
  `List.filter`.
* A service method that can throw returns its result in
  `Except ServiceError`, paired with the database state after the call
  (errors thrown mid-method keep the writes already performed, as the
  source performs no transactions in these paths).
* `new Date()` timestamps are a `Nat` clock carried in the state.
* JavaScript truthiness on optional strings (`if (reason)`) is modelled
  explicitly: `none` and `some ""` are falsy.
-/

deriving instance DecidableEq for Except

/-- Error taxonomy of the services: the NestJS exception classes actually
thrown by the embedded code paths. -/
inductive ServiceError where
  | notFound (msg : String)
  | badRequest (msg : String)
  | forbidden (msg : String)
  | conflict (msg : String)
deriving DecidableEq, Repr

/-- Rounding to 2 decimal places: multiply by 100, round half-up, divide
by 100.  For the nonnegative inputs the claims quantify over this agrees
with JavaScript's `Number(x.toFixed(2))`. -/
def round2 (q : ℚ) : ℚ := ((⌊q * 100 + 1 / 2⌋ : ℤ) : ℚ) / 100

/-- JavaScript truthiness of an optional string: `undefined`/`null` and
the empty string are falsy. -/
def strTruthy : Option String → Bool
  | none => false
  | some s => !(s == "")

namespace CommissionSettingService

/-- One row of the `commission_settings` table. -/
structure CommissionSetting where
  id : String
  commission : ℚ
  updatedAt : Nat
deriving DecidableEq, Repr

/-- The commission-settings store.  `settings` is kept newest-first, so a
`findFirst({orderBy: {updatedAt: 'desc'}})` read is `settings.head?`;
`nextId` generates fresh ids and `now` is the clock. -/
structure CommissionDb where
  settings : List CommissionSetting
  nextId : Nat := 0
  now : Nat := 0
deriving DecidableEq, Repr

/-- Embedding of `prisma.commissionSetting.create`: inserts a fresh row; with a fresh
(strictly larger) `updatedAt` the new row is the newest, hence the head. -/
def createSetting (db : CommissionDb) (commission : ℚ) :
    CommissionDb × CommissionSetting :=
  let row : CommissionSetting :=
    { id := "c" ++ toString db.nextId, commission := commission, updatedAt := db.now }
  ({ settings := row :: db.settings, nextId := db.nextId + 1, now := db.now + 1 }, row)

/-- Validation helper `validateCommission`: rejects values outside `[0, 100]`, then values
above the business ceiling `MAX_ALLOWED_COMMISSION = 50`. -/
def validateCommission (commission : ℚ) : Except ServiceError Unit :=
  if commission < 0 ∨ 100 < commission then
    .error (.badRequest "Commission must be between 0 and 100 percent")
  else if 50 < commission then
    .error (.badRequest "Commission cannot exceed 50%")
  else
    .ok ()

/-- Read path `findCurrent`: latest row, or the synthetic zero-commission default
row when the table is empty. -/
def findCurrent (db : CommissionDb) : CommissionSetting :=
  match db.settings.head? with
  | some s => s
  | none => { id := "default", commission := 0, updatedAt := db.now }

/-- Upsert path `updateCurrent`: updates the latest row in place when one exists,
otherwise creates the first row.  The `validateCommission` call in the
source is commented out, so no validation happens on this path. -/
def updateCurrent (db : CommissionDb) (commission : ℚ) :
    CommissionDb × Except ServiceError CommissionSetting :=
  match db.settings with
  | cur :: rest =>
      let updated : CommissionSetting :=
        { cur with commission := commission, updatedAt := db.now }
      ({ db with settings := updated :: rest, now := db.now + 1 }, .ok updated)
  | [] =>
      let (db2, row) := createSetting db commission
      (db2, .ok row)

/-- Reset operation `resetToDefault`: requires an existing row (else `NotFoundException`),
then appends a fresh row with commission 0. -/
def resetToDefault (db : CommissionDb) :
    CommissionDb × Except ServiceError CommissionSetting :=
  match db.settings with
  | [] => (db, .error (.notFound "No commission setting found to reset"))
  | _ :: _ =>
      let (db2, row) := createSetting db 0
      (db2, .ok row)

/-- Result record of `calculateCommission`. -/
structure CommissionCalcResult where
  commissionPercentage : ℚ
  commissionAmount : ℚ
  vendorAmount : ℚ
  orderTotal : ℚ
deriving DecidableEq, Repr

/-- The arithmetic of `calculateCommission`: the unrounded commission is
`orderTotal * pct / 100`, the unrounded vendor share is the difference,
and the two are rounded to 2 decimals independently. -/
def calcCommission (orderTotal pct : ℚ) : CommissionCalcResult :=
  let commissionAmount := orderTotal * pct / 100
  let vendorAmount := orderTotal - commissionAmount
  { commissionPercentage := pct
    commissionAmount := round2 commissionAmount
    vendorAmount := round2 vendorAmount
    orderTotal := round2 orderTotal }

/-- Embedding of `calculateCommission(orderTotal, customCommission?)`: a provided
custom percentage is validated and used; otherwise the current setting's
percentage is used unvalidated. -/
def calculateCommission (db : CommissionDb) (orderTotal : ℚ)
    (customCommission : Option ℚ) : Except ServiceError CommissionCalcResult :=
  match customCommission with
  | some c =>
      match validateCommission c with
      | .error e => .error e
      | .ok _ => .ok (calcCommission orderTotal c)
  | none => .ok (calcCommission orderTotal (findCurrent db).commission)

end CommissionSettingService

namespace VendorPayoutService

/-- Vendor lifecycle status (`VendorStatus` enum). -/
inductive VendorStatus where
  | PENDING | APPROVED | REJECTED | SUSPENDED
deriving DecidableEq, Repr

/-- Payout lifecycle status (`PayoutStatus` enum: the migration declares
exactly `PENDING`, `COMPLETED`, `REJECTED`). -/
inductive PayoutStatus where
  | PENDING | COMPLETED | REJECTED
deriving DecidableEq, Repr

/-- One row of the `vendors` table (all columns of the migration; note
there is no balance column). -/
structure Vendor where
  id : String
  name : String := ""
  slug : String := ""
  ownerId : String := ""
  logoUrl : Option String := none
  coverPhoto : Option String := none
  phone : Option String := none
  email : Option String := none
  address : Option String := none
  description : Option String := none
  status : VendorStatus := .PENDING
  commissionPct : ℚ := 0
  createdAt : Nat := 0
  updatedAt : Nat := 0
deriving DecidableEq, Repr

/-- One row of the `vendor_payouts` table. -/
structure VendorPayout where
  id : String
  vendorId : String
  requestedBy : Option String
  amount : ℚ
  method : String
  reference : Option String := none
  status : PayoutStatus := .PENDING
  createdAt : Nat := 0
  processedAt : Option Nat := none
deriving DecidableEq, Repr

/-- The slice of the database the payout service touches, plus the id
counter and clock. -/
structure Db where
  vendors : List Vendor
  payouts : List VendorPayout
  nextId : Nat := 0
  now : Nat := 0
deriving DecidableEq, Repr

/-- Embedding of `prisma.vendor.findUnique({where: {id}})`. -/
def findVendor (db : Db) (id : String) : Option Vendor :=
  db.vendors.find? (fun v => v.id == id)

/-- Embedding of `prisma.vendorPayout.findUnique({where: {id}})`. -/
def findPayout (db : Db) (id : String) : Option VendorPayout :=
  db.payouts.find? (fun p => p.id == id)

/-- Embedding of `prisma.vendorPayout.update({where: {id}, data})`: rewrites the
record(s) whose id matches. -/
def updatePayoutRecord (db : Db) (id : String) (f : VendorPayout → VendorPayout) : Db :=
  { db with payouts := db.payouts.map (fun p => if p.id == id then f p else p) }

/-- Body of `create-vendor-payout.dto`. -/
structure CreateVendorPayoutDto where
  vendorId : String
  amount : ℚ
  method : String
  reference : Option String := none
deriving DecidableEq, Repr

/-- Body of `update-vendor-payout.dto`; `none` is an absent field, which
Prisma leaves unchanged. -/
structure UpdateVendorPayoutDto where
  amount : Option ℚ := none
  method : Option String := none
  reference : Option String := none
  status : Option PayoutStatus := none
  processedAt : Option Nat := none
deriving DecidableEq, Repr

/-- Helper `canUserRequestPayout`: looks the vendor up, but the function body has
no `return` statement on its success path, so the promise resolves to
`undefined` (`none` here); only the `catch` branch would produce `false`. -/
def canUserRequestPayout (db : Db) (_userId : String) (vendorId : String) :
    Option Bool :=
  let _vendor := findVendor db vendorId
  none

/-- JavaScript truthiness of the `Promise<any>` result of
`canUserRequestPayout`: `undefined` is falsy. -/
def optTruthy : Option Bool → Bool
  | none => false
  | some b => b

/-- The `MIN_PAYOUT_AMOUNT` constant from `create`. -/
def MIN_PAYOUT_AMOUNT : ℚ := 10

/-- Embedding of `create(userId, dto)`: vendor-existence check, permission check
(which can never pass, see `canUserRequestPayout`), minimum-amount check,
then insert of a PENDING record. -/
def create (db : Db) (userId : String) (dto : CreateVendorPayoutDto) :
    Db × Except ServiceError VendorPayout :=
  match findVendor db dto.vendorId with
  | none => (db, .error (.badRequest "Vendor does not exist"))
  | some _ =>
      if !(optTruthy (canUserRequestPayout db userId dto.vendorId)) then
        (db, .error (.forbidden
          "You do not have permission to request payouts for this vendor"))
      else if dto.amount < MIN_PAYOUT_AMOUNT then
        (db, .error (.badRequest "Minimum payout amount is $10"))
      else
        let payout : VendorPayout :=
          { id := "p" ++ toString db.nextId
            vendorId := dto.vendorId
            requestedBy := some userId
            amount := dto.amount
            method := dto.method
            reference := dto.reference
            status := .PENDING
            createdAt := db.now }
        ({ db with payouts := db.payouts ++ [payout],
                   nextId := db.nextId + 1, now := db.now + 1 },
         .ok payout)

/-- Helper `updateVendorBalance(vendorId, amount)`: runs `vendor.update` with an
empty `data` object — the `balance: { increment: amount }` lines are
commented out, so no vendor field is written; a missing vendor makes the
Prisma update throw, rethrown as `BadRequestException`. -/
def updateVendorBalance (db : Db) (vendorId : String) (_amount : ℚ) :
    Db × Except ServiceError Unit :=
  match findVendor db vendorId with
  | some _ => (db, .ok ())
  | none => (db, .error (.badRequest "Failed to update vendor balance"))

/-- Embedding of `approve(id)`: requires an existing PENDING payout; sets status
COMPLETED and `processedAt = now`, then calls `updateVendorBalance`. -/
def approve (db : Db) (id : String) : Db × Except ServiceError VendorPayout :=
  match findPayout db id with
  | none => (db, .error (.notFound ("Payout with ID " ++ id ++ " not found")))
  | some payout =>
      if payout.status ≠ .PENDING then
        (db, .error (.badRequest "Only pending payouts can be approved"))
      else
        let updated : VendorPayout :=
          { payout with status := .COMPLETED, processedAt := some db.now }
        let db1 := updatePayoutRecord db id
          (fun p => { p with status := .COMPLETED, processedAt := some db.now })
        match updateVendorBalance db1 payout.vendorId (-payout.amount) with
        | (db2, .ok _) => (db2, .ok updated)
        | (db2, .error e) => (db2, .error e)

/-- Embedding of `reject(id, reason?)`: requires an existing PENDING payout; sets
status REJECTED and, when `reason` is truthy, overwrites `reference` with
`"Rejected: " ++ reason` (the original reference survives only when the
reason is absent or empty). -/
def reject (db : Db) (id : String) (reason : Option String) :
    Db × Except ServiceError VendorPayout :=
  match findPayout db id with
  | none => (db, .error (.notFound ("Payout with ID " ++ id ++ " not found")))
  | some payout =>
      if payout.status ≠ .PENDING then
        (db, .error (.badRequest "Only pending payouts can be rejected"))
      else
        let newRef : Option String :=
          if strTruthy reason then some ("Rejected: " ++ reason.getD "")
          else payout.reference
        let updated : VendorPayout :=
          { payout with status := .REJECTED, reference := newRef }
        (updatePayoutRecord db id
          (fun p => { p with status := .REJECTED, reference := newRef }),
         .ok updated)

/-- Embedding of `cancel(id, userId)`: requires an existing payout requested by
`userId` and still PENDING; deletes the record. -/
def cancel (db : Db) (id : String) (userId : String) :
    Db × Except ServiceError Unit :=
  match findPayout db id with
  | none => (db, .error (.notFound ("Payout with ID " ++ id ++ " not found")))
  | some payout =>
      if payout.requestedBy ≠ some userId then
        (db, .error (.forbidden "You can only cancel your own payout requests"))
      else if payout.status ≠ .PENDING then
        (db, .error (.badRequest "Only pending payouts can be cancelled"))
      else
        ({ db with payouts := db.payouts.filter (fun p => !(p.id == id)) }, .ok ())

/-- Embedding of `update(id, dto, isAdmin)`: admin-only; when the dto moves the status
to COMPLETED and `processedAt` is still unset, stamps `processedAt` and
calls `updateVendorBalance`; then writes every field present in the dto
(no transition validation at all). -/
def update (db : Db) (id : String) (dto : UpdateVendorPayoutDto)
    (isAdmin : Bool) : Db × Except ServiceError VendorPayout :=
  if !isAdmin then
    (db, .error (.forbidden "Only administrators can update payouts"))
  else
    match findPayout db id with
    | none => (db, .error (.notFound ("Payout with ID " ++ id ++ " not found")))
    | some existingPayout =>
        let completing :=
          dto.status == some .COMPLETED && existingPayout.processedAt == none
        let procNew : Option Nat :=
          if completing then some db.now else dto.processedAt
        let step : Db × Except ServiceError Unit :=
          if completing then
            updateVendorBalance db existingPayout.vendorId (-existingPayout.amount)
          else (db, .ok ())
        match step with
        | (db1, .error e) => (db1, .error e)
        | (db1, .ok _) =>
            let updated : VendorPayout :=
              { existingPayout with
                amount := dto.amount.getD existingPayout.amount
                method := dto.method.getD existingPayout.method
                reference :=
                  match dto.reference with
                  | some s => some s
                  | none => existingPayout.reference
                status := dto.status.getD existingPayout.status
                processedAt :=
                  match procNew with
                  | some t => some t
                  | none => existingPayout.processedAt }
            (updatePayoutRecord db1 id (fun _ => updated), .ok updated)

/-- The `reduce` in `bulkApprove`: per-vendor totals of the completed
payouts, in first-seen order. -/
def vendorTotals (ps : List VendorPayout) : List (String × ℚ) :=
  ps.foldl
    (fun acc p =>
      if acc.any (fun e => e.1 == p.vendorId) then
        acc.map (fun e => if e.1 == p.vendorId then (e.1, e.2 + p.amount) else e)
      else
        acc ++ [(p.vendorId, p.amount)])
    []

/-- The `for … of Object.entries(vendorUpdates)` loop of `bulkApprove`:
one `updateVendorBalance` call per vendor, stopping at the first error. -/
def applyBalanceUpdates (db : Db) : List (String × ℚ) → Db × Except ServiceError Unit
  | [] => (db, .ok ())
  | (vid, amt) :: rest =>
      match updateVendorBalance db vid (-amt) with
      | (db1, .ok _) => applyBalanceUpdates db1 rest
      | (db1, .error e) => (db1, .error e)

/-- Embedding of `bulkApprove(ids)`: `updateMany` sets every listed PENDING payout to
COMPLETED with `processedAt = now`; then the listed payouts now COMPLETED
are re-read, grouped by vendor, and `updateVendorBalance` runs per vendor. -/
def bulkApprove (db : Db) (ids : List String) : Db × Except ServiceError Nat :=
  let hit : VendorPayout → Bool :=
    fun p => ids.contains p.id && p.status == .PENDING
  let count := (db.payouts.filter hit).length
  let db1 : Db :=
    { db with payouts := db.payouts.map (fun p =>
        if hit p then { p with status := .COMPLETED, processedAt := some db.now }
        else p) }
  let completed := db1.payouts.filter
    (fun p => ids.contains p.id && p.status == .COMPLETED)
  match applyBalanceUpdates db1 (vendorTotals completed) with
  | (db2, .ok _) => (db2, .ok count)
  | (db2, .error e) => (db2, .error e)

end VendorPayoutService

namespace VendorPayoutService

/-- The `PayoutSortBy` enum of the query dto. -/
inductive PayoutSortBy where
  | CREATED_AT | UPDATED_AT | AMOUNT | PROCESSED_AT
deriving DecidableEq, Repr

/-- The `sortOrder` values of the query dto. -/
inductive SortOrder where
  | asc | desc
deriving DecidableEq, Repr

/-- The `query-vendor-payout.dto` with its defaults (`page = 1`, `limit = 20`,
`sortBy = CREATED_AT`, `sortOrder = 'desc'`); the dto validators require
`page ≥ 1` and `limit ≥ 1`. -/
structure QueryVendorPayoutDto where
  page : Nat := 1
  limit : Nat := 20
  vendorId : Option String := none
  requestedBy : Option String := none
  status : Option PayoutStatus := none
  minAmount : Option ℚ := none
  maxAmount : Option ℚ := none
  method : Option String := none
  fromDate : Option Nat := none
  toDate : Option Nat := none
  sortBy : PayoutSortBy := .CREATED_AT
  sortOrder : SortOrder := .desc
deriving DecidableEq, Repr

/-- Character-wise lowercase, for the `mode: 'insensitive'` filter. -/
def lowerStr (s : String) : String := String.mk (s.toList.map Char.toLower)

/-- Does the first list occur at the start of the second? -/
def charsStartWith : List Char → List Char → Bool
  | [], _ => true
  | _ :: _, [] => false
  | a :: as, b :: bs => a == b && charsStartWith as bs

/-- Does the first list occur contiguously anywhere in the second? -/
def charsHasSub (sub : List Char) : List Char → Bool
  | [] => sub.isEmpty
  | c :: rest => charsStartWith sub (c :: rest) || charsHasSub sub rest

/-- Substring test on strings. -/
def strHasSub (needle hay : String) : Bool := charsHasSub needle.toList hay.toList

/-- Prisma `{ contains: needle, mode: 'insensitive' }`. -/
def containsInsensitive (hay needle : String) : Bool :=
  strHasSub (lowerStr needle) (lowerStr hay)

/-- The `where` object built by `findWithQuery`: each filter is applied
only when its query field is present (strings additionally must be
truthy, matching the JavaScript `if (vendorId)`-style guards; the amount
bounds use `!== undefined` so they always apply when present). -/
def matchesWhere (q : QueryVendorPayoutDto) (p : VendorPayout) : Bool :=
  (if strTruthy q.vendorId then p.vendorId == q.vendorId.getD "" else true) &&
  (if strTruthy q.requestedBy then p.requestedBy == some (q.requestedBy.getD "") else true) &&
  (match q.status with | some s => p.status == s | none => true) &&
  (match q.minAmount with | some m => decide (m ≤ p.amount) | none => true) &&
  (match q.maxAmount with | some m => decide (p.amount ≤ m) | none => true) &&
  (if strTruthy q.method then containsInsensitive p.method (q.method.getD "") else true) &&
  (match q.fromDate with | some d => decide (d ≤ p.createdAt) | none => true) &&
  (match q.toDate with | some d => decide (p.createdAt ≤ d) | none => true)

/-- Result page of `findWithQuery`. -/
structure PayoutPage where
  payouts : List VendorPayout
  total : Nat
  page : Nat
  limit : Nat
  totalPages : Nat
deriving DecidableEq, Repr

/-- Embedding of `findWithQuery(query)`: builds the filter, computes an `orderBy`
object from `sortBy`/`sortOrder` (left undefined on the `UPDATED_AT`
branch), but the `findMany` call has its `orderBy` argument commented
out, so records come back in stored order; pagination is
`skip = (page-1)*limit`, `take = limit`. -/
def findWithQuery (db : Db) (q : QueryVendorPayoutDto) : PayoutPage :=
  let skip := (q.page - 1) * q.limit
  let _orderBy : Option (PayoutSortBy × SortOrder) :=
    match q.sortBy with
    | .AMOUNT => some (.AMOUNT, q.sortOrder)
    | .PROCESSED_AT => some (.PROCESSED_AT, q.sortOrder)
    | .UPDATED_AT => none
    | .CREATED_AT => some (.CREATED_AT, q.sortOrder)
  let filtered := db.payouts.filter (matchesWhere q)
  let total := filtered.length
  { payouts := (filtered.drop skip).take q.limit
    total := total
    page := q.page
    limit := q.limit
    totalPages := (total + q.limit - 1) / q.limit }

end VendorPayoutService

namespace VendorPayoutService

/-- The id column is a primary key: payout ids are pairwise distinct. -/
abbrev IdsDistinct (db : Db) : Prop :=
  db.payouts.Pairwise (fun a b => a.id ≠ b.id)

/-- Every payout that is no longer PENDING survives each of `create`,
`approve`, `reject`, `cancel` and `bulkApprove` completely unchanged (in
particular its status never returns to PENDING and its processedAt is
never touched again). -/
def NonPendingFrozen (db : Db) : Prop :=
  ∀ p ∈ db.payouts, p.status ≠ .PENDING →
    (∀ userId dto, findPayout ((create db userId dto).1) p.id = some p) ∧
    (∀ i, findPayout ((approve db i).1) p.id = some p) ∧
    (∀ i reason, findPayout ((reject db i reason).1) p.id = some p) ∧
    (∀ i u, findPayout ((cancel db i u).1) p.id = some p) ∧
    (∀ ids, findPayout ((bulkApprove db ids).1) p.id = some p)

/-- Invariant: `processedAt` is set on exactly the COMPLETED payouts. -/
def ProcessedAligned (db : Db) : Prop :=
  ∀ p ∈ db.payouts, (p.status = .COMPLETED ↔ p.processedAt ≠ none)

/-- The five state-machine operations preserve `ProcessedAligned`: a
payout acquires a `processedAt` exactly when it transitions to COMPLETED. -/
def PreservesAlignment (db : Db) : Prop :=
  ProcessedAligned db →
    (∀ userId dto, ProcessedAligned ((create db userId dto).1)) ∧
    (∀ i, ProcessedAligned ((approve db i).1)) ∧
    (∀ i reason, ProcessedAligned ((reject db i reason).1)) ∧
    (∀ i u, ProcessedAligned ((cancel db i u).1)) ∧
    (∀ ids, ProcessedAligned ((bulkApprove db ids).1))

end VendorPayoutService

namespace Spec2ProofData

open VendorPayoutService

def vendor1 : Vendor := { id := "v1" }

/-- Witness state for C3: one vendor, no payouts. -/
def dbW3 : Db := { vendors := [vendor1], payouts := [] }

/-- Witness request body for C3. -/
def dtoW3 : CreateVendorPayoutDto := { vendorId := "v1", amount := 100, method := "bank" }

def pC2 : VendorPayout :=
  { id := "p1", vendorId := "v1", requestedBy := some "u1",
    amount := 100000, method := "bank" }

/-- C2 state: vendor `v1` (which has no balance field at all) and the
oversized PENDING payout. -/
def dbC2 : Db := { vendors := [vendor1], payouts := [pC2], now := 7 }

def pC6 : VendorPayout :=
  { id := "p1", vendorId := "v1", requestedBy := some "u1",
    amount := 50, method := "bank", reference := some "ref-001" }

/-- C6 state. -/
def dbC6 : Db := { vendors := [vendor1], payouts := [pC6] }

def dbC7 : CommissionSettingService.CommissionDb :=
  { settings := [{ id := "c0", commission := 5, updatedAt := 0 }],
    nextId := 1, now := 1 }

def pC5 : VendorPayout :=
  { id := "p2", vendorId := "v1", requestedBy := some "u1",
    amount := 20, method := "bank", status := .COMPLETED, processedAt := some 3 }

/-- C5 state. -/
def dbC5 : Db := { vendors := [vendor1], payouts := [pC5] }

def pC4 : VendorPayout :=
  { id := "p1", vendorId := "v1", requestedBy := some "u1",
    amount := 30, method := "bank", status := .COMPLETED, processedAt := some 5 }

/-- C4 counterexample state. -/
def dbC4 : Db := { vendors := [vendor1], payouts := [pC4], now := 9 }

/-- C4 dto that sends the status back to PENDING. -/
def dtoC4 : UpdateVendorPayoutDto := { status := some .PENDING }

def pW4a : VendorPayout :=
  { id := "p1", vendorId := "v1", requestedBy := some "u1",
    amount := 40, method := "bank", status := .REJECTED }

/-- C4 witness data: a PENDING payout. -/
def pW4b : VendorPayout :=
  { id := "p2", vendorId := "v1", requestedBy := some "u1",
    amount := 15, method := "bank" }

/-- C4 witness state. -/
def dbW4 : Db := { vendors := [vendor1], payouts := [pW4a, pW4b], now := 4 }

end Spec2ProofData

namespace VendorPayoutService

/-! Helper lemmas about the payout operations. -/

theorem updateVendorBalance_fst (db : Db) (vendorId : String) (amount : ℚ) :
    (updateVendorBalance db vendorId amount).1 = db := by
  unfold updateVendorBalance
  cases findVendor db vendorId <;> rfl

theorem applyBalanceUpdates_fst (l : List (String × ℚ)) (db : Db) :
    (applyBalanceUpdates db l).1 = db := by
  induction l generalizing db with
  | nil => rfl
  | cons e rest ih =>
      obtain ⟨vid, amt⟩ := e
      simp only [applyBalanceUpdates]
      unfold updateVendorBalance
      cases findVendor db vid
      · rfl
      · simpa using ih db

theorem approve_fst_vendors (db : Db) (id : String) :
    ((approve db id).1).vendors = db.vendors := by
  unfold approve
  cases findPayout db id with
  | none => rfl
  | some payout =>
      by_cases h : payout.status = .PENDING
      · simp only [h, ne_eq, not_true_eq_false, if_false]
        have h1 := updateVendorBalance_fst
          (updatePayoutRecord db id
            (fun p => { p with status := .COMPLETED, processedAt := some db.now }))
          payout.vendorId (-payout.amount)
        cases hb : updateVendorBalance
            (updatePayoutRecord db id
              (fun p => { p with status := .COMPLETED, processedAt := some db.now }))
            payout.vendorId (-payout.amount) with
        | mk db2 r =>
            cases r <;> simp_all [updatePayoutRecord]
      · simp [h]

theorem bulkApprove_fst_vendors (db : Db) (ids : List String) :
    ((bulkApprove db ids).1).vendors = db.vendors := by
  unfold bulkApprove
  set db1 : Db :=
    { db with payouts := db.payouts.map (fun p =>
        if ids.contains p.id && p.status == .PENDING then
          { p with status := .COMPLETED, processedAt := some db.now }
        else p) } with hdb1
  have h1 := applyBalanceUpdates_fst
    (vendorTotals (db1.payouts.filter
      (fun p => ids.contains p.id && p.status == .COMPLETED))) db1
  cases hb : applyBalanceUpdates db1
      (vendorTotals (db1.payouts.filter
        (fun p => ids.contains p.id && p.status == .COMPLETED))) with
  | mk db2 r =>
      cases r <;> simp_all [hdb1]

end VendorPayoutService

namespace VendorPayoutService

/-! Lemmas for the payout state machine. -/

theorem find_id_of_mem_pairwise {l : List VendorPayout}
    (hl : l.Pairwise (fun a b => a.id ≠ b.id)) {p : VendorPayout} (hp : p ∈ l) :
    l.find? (fun q => q.id == p.id) = some p := by
  induction l with
  | nil => simp at hp
  | cons a rest ih =>
      rcases List.mem_cons.mp hp with rfl | hmem
      · exact List.find?_cons_of_pos _ (by simp)
      · have hne : a.id ≠ p.id := (List.pairwise_cons.mp hl).1 p hmem
        rw [List.find?_cons_of_neg _ (by simpa using hne)]
        exact ih (List.pairwise_cons.mp hl).2 hmem

theorem find_map_id_pres {l : List VendorPayout} {g : VendorPayout → VendorPayout}
    (hg : ∀ q, (g q).id = q.id) {x : String} {p : VendorPayout}
    (hfix : g p = p) (hfind : l.find? (fun q => q.id == x) = some p) :
    (l.map g).find? (fun q => q.id == x) = some p := by
  induction l with
  | nil => simp at hfind
  | cons a rest ih =>
      by_cases ha : (a.id == x) = true
      · rw [List.find?_cons_of_pos (p := fun (q : VendorPayout) => q.id == x) _ ha] at hfind
        cases hfind
        rw [List.map_cons,
          List.find?_cons_of_pos (p := fun (q : VendorPayout) => q.id == x) _ (by simpa [hg] using ha),
          hfix]
      · rw [List.find?_cons_of_neg (p := fun (q : VendorPayout) => q.id == x) _ ha] at hfind
        rw [List.map_cons,
          List.find?_cons_of_neg (p := fun (q : VendorPayout) => q.id == x) _ (by simpa [hg] using ha)]
        exact ih hfind

theorem find_filter_pres {l : List VendorPayout} {keep : VendorPayout → Bool}
    {x : String} {p : VendorPayout}
    (hk : keep p = true) (hfind : l.find? (fun q => q.id == x) = some p) :
    (l.filter keep).find? (fun q => q.id == x) = some p := by
  induction l with
  | nil => simp at hfind
  | cons a rest ih =>
      by_cases ha : (a.id == x) = true
      · rw [List.find?_cons_of_pos (p := fun (q : VendorPayout) => q.id == x) _ ha] at hfind
        cases hfind
        rw [List.filter_cons_of_pos hk,
          List.find?_cons_of_pos (p := fun (q : VendorPayout) => q.id == x) _ ha]
      · rw [List.find?_cons_of_neg (p := fun (q : VendorPayout) => q.id == x) _ ha] at hfind
        by_cases hka : keep a = true
        · rw [List.filter_cons_of_pos hka,
            List.find?_cons_of_neg (p := fun (q : VendorPayout) => q.id == x) _ ha]
          exact ih hfind
        · rw [List.filter_cons_of_neg (by simpa using hka)]
          exact ih hfind

theorem find_append_left {l l' : List VendorPayout} {f : VendorPayout → Bool}
    {p : VendorPayout} (h : l.find? f = some p) : (l ++ l').find? f = some p := by
  rw [List.find?_append, h]
  rfl

/-- The operation `create` never writes: every path errors before the insert. -/
theorem create_fst (db : Db) (userId : String) (dto : CreateVendorPayoutDto) :
    (create db userId dto).1 = db := by
  unfold create
  cases findVendor db dto.vendorId <;>
    simp [canUserRequestPayout, optTruthy]

/-- State effect of `approve`: either nothing (error before the write) or
exactly the status/processedAt rewrite of the records with the given id. -/
theorem approve_fst (db : Db) (i : String) :
    (approve db i).1 = db ∨
    ∃ q, findPayout db i = some q ∧ q.status = .PENDING ∧
      (approve db i).1 = updatePayoutRecord db i
        (fun p => { p with status := .COMPLETED, processedAt := some db.now }) := by
  unfold approve
  cases hf : findPayout db i with
  | none => exact Or.inl rfl
  | some q =>
      by_cases hs : q.status = .PENDING
      · refine Or.inr ⟨q, rfl, hs, ?_⟩
        simp only [hs, ne_eq, not_true_eq_false, if_false]
        have h1 := updateVendorBalance_fst
          (updatePayoutRecord db i
            (fun p => { p with status := .COMPLETED, processedAt := some db.now }))
          q.vendorId (-q.amount)
        cases hb : updateVendorBalance
            (updatePayoutRecord db i
              (fun p => { p with status := .COMPLETED, processedAt := some db.now }))
            q.vendorId (-q.amount) with
        | mk db2 r => cases r <;> simp_all
      · exact Or.inl (by simp [hs])

/-- State effect of `reject`: nothing, or the status/reference rewrite of
the records with the given id. -/
theorem reject_fst (db : Db) (i : String) (reason : Option String) :
    (reject db i reason).1 = db ∨
    ∃ q, findPayout db i = some q ∧ q.status = .PENDING ∧
      (reject db i reason).1 = updatePayoutRecord db i
        (fun p =>
          { p with
            status := .REJECTED
            reference := (if strTruthy reason
              then some ("Rejected: " ++ reason.getD "") else q.reference) }) := by
  unfold reject
  cases hf : findPayout db i with
  | none => exact Or.inl rfl
  | some q =>
      by_cases hs : q.status = .PENDING
      · exact Or.inr ⟨q, rfl, hs, by simp [hs]⟩
      · exact Or.inl (by simp [hs])

/-- State effect of `cancel`: nothing, or the deletion of the records with
the given id. -/
theorem cancel_fst (db : Db) (i u : String) :
    (cancel db i u).1 = db ∨
    ∃ q, findPayout db i = some q ∧ q.status = .PENDING ∧
      (cancel db i u).1 =
        { db with payouts := db.payouts.filter (fun p => !(p.id == i)) } := by
  unfold cancel
  cases hf : findPayout db i with
  | none => exact Or.inl rfl
  | some q =>
      by_cases hu : q.requestedBy = some u
      · by_cases hs : q.status = .PENDING
        · exact Or.inr ⟨q, rfl, hs, by simp [hu, hs]⟩
        · exact Or.inl (by simp [hu, hs])
      · exact Or.inl (by simp [hu])

/-- State effect of `bulkApprove`: exactly the `updateMany` rewrite of the
listed PENDING records (the later balance loop never changes state). -/
theorem bulkApprove_fst (db : Db) (ids : List String) :
    (bulkApprove db ids).1 =
      { db with payouts := db.payouts.map (fun p =>
          if ids.contains p.id && p.status == .PENDING then
            { p with status := .COMPLETED, processedAt := some db.now }
          else p) } := by
  unfold bulkApprove
  set db1 : Db :=
    { db with payouts := db.payouts.map (fun p =>
        if ids.contains p.id && p.status == .PENDING then
          { p with status := .COMPLETED, processedAt := some db.now }
        else p) } with hdb1
  have h1 := applyBalanceUpdates_fst
    (vendorTotals (db1.payouts.filter
      (fun p => ids.contains p.id && p.status == .COMPLETED))) db1
  cases hb : applyBalanceUpdates db1
      (vendorTotals (db1.payouts.filter
        (fun p => ids.contains p.id && p.status == .COMPLETED))) with
  | mk db2 r => cases r <;> simp_all

end VendorPayoutService

namespace VendorPayoutService

theorem symm_id_ne :
    Symmetric (fun (a b : VendorPayout) => a.id ≠ b.id) :=
  fun _ _ h e => h e.symm

end VendorPayoutService

open CommissionSettingService in
/-- C1: the commission identity fails on the code.  At `orderTotal = 0.01`
and `percentage = 50` the exact commission `0.005` sits on a half-cent, both
independent roundings go up, and
`commissionAmount + vendorAmount = 0.02 ≠ 0.01 = round2(orderTotal)`. -/
theorem calculateCommission_breaks_commission_identity :
    calculateCommission { settings := [] } (1/100) (some 50) =
      .ok { commissionPercentage := 50, commissionAmount := 1/100,
            vendorAmount := 1/100, orderTotal := 1/100 } ∧
    (1 : ℚ)/100 + 1/100 ≠ round2 (1/100) := by
  refine ⟨?_, by norm_num [round2]⟩
  norm_num [calculateCommission, validateCommission, calcCommission, round2]

open VendorPayoutService Spec2ProofData in
/-- C2: `approve` performs no balance check and no debit.  A PENDING payout
of 100000 against a vendor with no funds (the vendors table has no balance
column at all) is approved successfully, and the vendor record is left
untouched, contradicting the claimed `BusinessRuleViolation` failure. -/
theorem approve_ignores_balance :
    (approve dbC2 "p1").2 =
      .ok { pC2 with status := .COMPLETED, processedAt := some 7 } ∧
    ((approve dbC2 "p1").1).payouts =
      [{ pC2 with status := .COMPLETED, processedAt := some 7 }] ∧
    ((approve dbC2 "p1").1).vendors = dbC2.vendors := by
  decide

open VendorPayoutService in
/-- C3: for every userId, vendorId and payout body, `create` throws
`ForbiddenException` whenever the vendor exists, because
`canUserRequestPayout` has no return statement on its success path and so
yields `undefined` (falsy) for every input; consequently no payout record
can ever be created through `create` (on a missing vendor it fails earlier
with `BadRequestException`). -/
theorem create_always_forbidden (db : Db) (userId : String)
    (dto : CreateVendorPayoutDto) (v : Vendor)
    (hv : findVendor db dto.vendorId = some v) :
    create db userId dto =
      (db, .error (.forbidden
        "You do not have permission to request payouts for this vendor")) ∧
    ∀ (db' : Db) (u' : String) (dto' : CreateVendorPayoutDto) (r : VendorPayout),
      (create db' u' dto').2 ≠ .ok r := by
  constructor
  · simp [create, hv, canUserRequestPayout, optTruthy]
  · intro db' u' dto' r
    unfold create
    cases findVendor db' dto'.vendorId <;>
      simp [canUserRequestPayout, optTruthy]

open VendorPayoutService Spec2ProofData in
/-- Witness for C3 at a concrete state holding vendor `v1`. -/
theorem create_always_forbidden_witness :
    create dbW3 "u1" dtoW3 =
      (dbW3, .error (.forbidden
        "You do not have permission to request payouts for this vendor")) ∧
    ∀ (db' : Db) (u' : String) (dto' : CreateVendorPayoutDto) (r : VendorPayout),
      (create db' u' dto').2 ≠ .ok r :=
  create_always_forbidden dbW3 "u1" dtoW3 vendor1 (by decide)

open VendorPayoutService Spec2ProofData in
/-- C4 counterexample: the generic admin `update` carries no transition
validation, so it moves a COMPLETED payout (processedAt set) back to
PENDING while keeping its processedAt. -/
theorem update_reverts_completed_to_pending :
    (findPayout dbC4 "p1").map (fun p => p.status) = some .COMPLETED ∧
    (update dbC4 "p1" dtoC4 true).2 = .ok { pC4 with status := .PENDING } ∧
    (findPayout ((update dbC4 "p1" dtoC4 true).1) "p1").map (fun p => p.status) =
      some .PENDING := by
  decide

open VendorPayoutService in
/-- C4 (amended): excluding the generic admin `update` — which performs no
transition validation and can write any status, including COMPLETED back
to PENDING (see the counterexample) — the payout operations are
write-once-forward: with payout ids pairwise distinct (the primary key),
every payout already COMPLETED or REJECTED is left completely unchanged by
`create`, `approve`, `reject`, `cancel` and `bulkApprove`, and those five
operations preserve the invariant that `processedAt` is set on exactly the
COMPLETED payouts, so `processedAt` is written exactly once, at the
transition to COMPLETED. -/
theorem payout_state_machine_forward (db : Db) (hid : IdsDistinct db) :
    NonPendingFrozen db ∧ PreservesAlignment db := by
  constructor
  · intro p hp hst
    have hfind : findPayout db p.id = some p := find_id_of_mem_pairwise hid hp
    have hstb : (p.status == PayoutStatus.PENDING) = false :=
      beq_eq_false_iff_ne.mpr hst
    refine ⟨?_, ?_, ?_, ?_, ?_⟩
    · intro userId dto
      rw [create_fst]
      exact hfind
    · intro i
      rcases approve_fst db i with h | ⟨q, hq, hqs, h⟩
      · rw [h]; exact hfind
      · rw [h]
        have hq2 : db.payouts.find? (fun r => r.id == i) = some q := hq
        have hqb := List.find?_some hq2
        have hqid : q.id = i := eq_of_beq hqb
        have hqmem : q ∈ db.payouts := List.mem_of_find?_eq_some hq2
        have hpq : p ≠ q := fun e => hst (by rw [e]; exact hqs)
        have hpi : (p.id == i) = false := by
          refine beq_eq_false_iff_ne.mpr ?_
          have h2 : p.id ≠ q.id := List.Pairwise.forall symm_id_ne hid hp hqmem hpq
          rw [hqid] at h2
          exact h2
        refine find_map_id_pres ?_ ?_ hfind
        · intro r
          cases hcond : (r.id == i) with
          | true => rfl
          | false => rfl
        · rw [if_neg (by simp [hpi])]
    · intro i reason
      rcases reject_fst db i reason with h | ⟨q, hq, hqs, h⟩
      · rw [h]; exact hfind
      · rw [h]
        have hq2 : db.payouts.find? (fun r => r.id == i) = some q := hq
        have hqb := List.find?_some hq2
        have hqid : q.id = i := eq_of_beq hqb
        have hqmem : q ∈ db.payouts := List.mem_of_find?_eq_some hq2
        have hpq : p ≠ q := fun e => hst (by rw [e]; exact hqs)
        have hpi : (p.id == i) = false := by
          refine beq_eq_false_iff_ne.mpr ?_
          have h2 : p.id ≠ q.id := List.Pairwise.forall symm_id_ne hid hp hqmem hpq
          rw [hqid] at h2
          exact h2
        refine find_map_id_pres ?_ ?_ hfind
        · intro r
          cases hcond : (r.id == i) with
          | true => rfl
          | false => rfl
        · rw [if_neg (by simp [hpi])]
    · intro i u
      rcases cancel_fst db i u with h | ⟨q, hq, hqs, h⟩
      · rw [h]; exact hfind
      · rw [h]
        have hq2 : db.payouts.find? (fun r => r.id == i) = some q := hq
        have hqb := List.find?_some hq2
        have hqid : q.id = i := eq_of_beq hqb
        have hqmem : q ∈ db.payouts := List.mem_of_find?_eq_some hq2
        have hpq : p ≠ q := fun e => hst (by rw [e]; exact hqs)
        have hpi : (p.id == i) = false := by
          refine beq_eq_false_iff_ne.mpr ?_
          have h2 : p.id ≠ q.id := List.Pairwise.forall symm_id_ne hid hp hqmem hpq
          rw [hqid] at h2
          exact h2
        exact find_filter_pres (by simp [hpi]) hfind
    · intro ids
      rw [bulkApprove_fst]
      refine find_map_id_pres ?_ ?_ hfind
      · intro r
        cases hcond : (ids.contains r.id && r.status == PayoutStatus.PENDING) with
        | true => rfl
        | false => rfl
      · rw [if_neg (by simp [hstb])]
  · intro hal
    refine ⟨?_, ?_, ?_, ?_, ?_⟩
    · intro userId dto
      rw [create_fst]
      exact hal
    · intro i
      rcases approve_fst db i with h | ⟨q, hq, hqs, h⟩
      · rw [h]; exact hal
      · rw [h]
        intro r hr
        rcases List.mem_map.mp hr with ⟨y, hy, rfl⟩
        cases hyi : (y.id == i) with
        | true => simp
        | false => exact hal y hy
    · intro i reason
      rcases reject_fst db i reason with h | ⟨q, hq, hqs, h⟩
      · rw [h]; exact hal
      · rw [h]
        have hq2 : db.payouts.find? (fun r => r.id == i) = some q := hq
        have hqb := List.find?_some hq2
        have hqid : q.id = i := eq_of_beq hqb
        have hqmem : q ∈ db.payouts := List.mem_of_find?_eq_some hq2
        have hqnone : q.processedAt = none := by
          have h2 := hal q hqmem
          rw [hqs] at h2
          by_contra hne
          exact absurd (h2.mpr hne) (by simp)
        intro r hr
        rcases List.mem_map.mp hr with ⟨y, hy, rfl⟩
        cases hyi : (y.id == i) with
        | true =>
            have hyq : y = q := by
              by_contra hne
              have hne2 : y.id ≠ q.id :=
                List.Pairwise.forall symm_id_ne hid hy hqmem hne
              exact hne2 (by rw [eq_of_beq hyi, hqid])
            subst hyq
            simp [hqnone]
        | false => exact hal y hy
    · intro i u
      rcases cancel_fst db i u with h | ⟨q, hq, hqs, h⟩
      · rw [h]; exact hal
      · rw [h]
        intro r hr
        exact hal r (List.mem_of_mem_filter hr)
    · intro ids
      rw [bulkApprove_fst]
      intro r hr
      rcases List.mem_map.mp hr with ⟨y, hy, rfl⟩
      cases hyc : (ids.contains y.id && y.status == PayoutStatus.PENDING) with
      | true => simp
      | false => exact hal y hy

open VendorPayoutService Spec2ProofData in
/-- Witness for C4 (amended) at a concrete two-payout state. -/
theorem payout_state_machine_forward_witness :
    IdsDistinct dbW4 ∧ (NonPendingFrozen dbW4 ∧ PreservesAlignment dbW4) :=
  ⟨by decide, payout_state_machine_forward dbW4 (by decide)⟩

open VendorPayoutService in
/-- C5: once a payout is COMPLETED or REJECTED, `approve` and `reject`
fail with the invalid-transition error, `cancel` (called by the requester)
fails with the invalid-transition error, `cancel` by anyone leaves the
state unchanged, and in every case the whole database — in particular the
payout's status and processedAt — is returned unchanged. -/
theorem terminal_payout_frozen (db : Db) (p : VendorPayout)
    (hfind : findPayout db p.id = some p)
    (hterm : p.status = .COMPLETED ∨ p.status = .REJECTED) :
    approve db p.id =
      (db, .error (.badRequest "Only pending payouts can be approved")) ∧
    (∀ reason, reject db p.id reason =
      (db, .error (.badRequest "Only pending payouts can be rejected"))) ∧
    (∀ userId, (cancel db p.id userId).1 = db) ∧
    (∀ userId, p.requestedBy = some userId →
      cancel db p.id userId =
        (db, .error (.badRequest "Only pending payouts can be cancelled"))) := by
  have hne : p.status ≠ .PENDING := by
    rcases hterm with h | h <;> simp [h]
  refine ⟨?_, ?_, ?_, ?_⟩
  · simp [approve, hfind, hne]
  · intro reason
    simp [reject, hfind, hne]
  · intro userId
    unfold cancel
    rw [hfind]
    by_cases hu : p.requestedBy = some userId
    · simp [hu, hne]
    · simp [hu]
  · intro userId hu
    simp [cancel, hfind, hu, hne]

open VendorPayoutService Spec2ProofData in
/-- Witness for C5 at a concrete COMPLETED payout. -/
theorem terminal_payout_frozen_witness :
    findPayout dbC5 pC5.id = some pC5 ∧
    (approve dbC5 pC5.id =
      (dbC5, .error (.badRequest "Only pending payouts can be approved")) ∧
    (∀ reason, reject dbC5 pC5.id reason =
      (dbC5, .error (.badRequest "Only pending payouts can be rejected"))) ∧
    (∀ userId, (cancel dbC5 pC5.id userId).1 = dbC5) ∧
    (∀ userId, pC5.requestedBy = some userId →
      cancel dbC5 pC5.id userId =
        (dbC5, .error (.badRequest "Only pending payouts can be cancelled")))) :=
  ⟨by decide, terminal_payout_frozen dbC5 pC5 (by decide) (Or.inl rfl)⟩

open VendorPayoutService Spec2ProofData in
/-- C6: `reject` with a truthy reason overwrites `reference` with
`"Rejected: <reason>"`, discarding the original value `"ref-001"` — the
stored reference does not contain the original reference anywhere. -/
theorem reject_overwrites_reference :
    (reject dbC6 "p1" (some "fraud")).2 =
      .ok { pC6 with status := .REJECTED, reference := some "Rejected: fraud" } ∧
    strHasSub "ref-001" "Rejected: fraud" = false := by
  decide

open CommissionSettingService Spec2ProofData in
/-- C7: `updateCurrent` performs no validation (the `validateCommission`
call is commented out in the source): a percentage of 60 — which
`validateCommission` would reject — is written to the current row and the
call reports success. -/
theorem updateCurrent_skips_validation :
    validateCommission 60 = .error (.badRequest "Commission cannot exceed 50%") ∧
    updateCurrent dbC7 60 =
      ({ dbC7 with settings := [{ id := "c0", commission := 60, updatedAt := 1 }],
                   now := 2 },
       .ok { id := "c0", commission := 60, updatedAt := 1 }) := by
  decide

open CommissionSettingService in
/-- C8 counterexample: on the empty store `resetToDefault` fails with
NotFound and appends nothing, so the row count does not increase by 1. -/
theorem resetToDefault_empty_fails :
    resetToDefault { settings := [] } =
      ({ settings := [] },
       .error (.notFound "No commission setting found to reset")) ∧
    ((resetToDefault { settings := [] }).1).settings.length = 0 := by
  decide

open CommissionSettingService in
/-- C8 (amended): for every state with at least one existing row,
`resetToDefault` appends a new row with commission 0 at the head, leaves
every previously existing row unchanged, and the number of rows increases
by exactly 1 (on the empty store it instead fails with NotFound and
appends nothing). -/
theorem resetToDefault_appends_zero_row (db : CommissionDb)
    (h : db.settings ≠ []) :
    ∃ row,
      resetToDefault db =
        ({ settings := row :: db.settings, nextId := db.nextId + 1,
           now := db.now + 1 }, .ok row) ∧
      row.commission = 0 ∧
      ((resetToDefault db).1).settings.length = db.settings.length + 1 := by
  obtain ⟨settings, nextId, now⟩ := db
  cases settings with
  | nil => simp at h
  | cons a rest => exact ⟨_, rfl, rfl, rfl⟩

open CommissionSettingService Spec2ProofData in
/-- Witness for C8 (amended) at a store with one row. -/
theorem resetToDefault_appends_zero_row_witness :
    dbC7.settings ≠ [] ∧
    ∃ row,
      resetToDefault dbC7 =
        ({ settings := row :: dbC7.settings, nextId := dbC7.nextId + 1,
           now := dbC7.now + 1 }, .ok row) ∧
      row.commission = 0 ∧
      ((resetToDefault dbC7).1).settings.length = dbC7.settings.length + 1 :=
  ⟨by decide, resetToDefault_appends_zero_row dbC7 (by decide)⟩

open VendorPayoutService in
/-- C9: a successful `approve` or `bulkApprove` leaves every field of every
vendor record unchanged — `updateVendorBalance` issues a vendor update whose
data object contains no fields (the balance increment is commented out), so
no debit is ever applied to any vendor state.  Proved in the strong form:
the vendors table is unchanged by every `approve`/`bulkApprove` call,
successful or not, and `updateVendorBalance` never changes the state. -/
theorem approve_leaves_vendors_unchanged (db : Db) :
    (∀ id, ((approve db id).1).vendors = db.vendors) ∧
    (∀ ids, ((bulkApprove db ids).1).vendors = db.vendors) ∧
    (∀ vendorId amount, (updateVendorBalance db vendorId amount).1 = db) :=
  ⟨fun id => approve_fst_vendors db id,
   fun ids => bulkApprove_fst_vendors db ids,
   fun vendorId amount => updateVendorBalance_fst db vendorId amount⟩

open VendorPayoutService in
/-- C10: the page returned by `findWithQuery` is independent of the query's
`sortBy` and `sortOrder` parameters: two calls identical except in those two
fields return the same records in the same order, because the computed
`orderBy` value is never passed to the underlying `findMany` call. -/
theorem findWithQuery_ignores_sort (db : Db) (q : QueryVendorPayoutDto)
    (sb1 sb2 : PayoutSortBy) (so1 so2 : SortOrder) :
    findWithQuery db { q with sortBy := sb1, sortOrder := so1 } =
      findWithQuery db { q with sortBy := sb2, sortOrder := so2 } := rfl
